import Mathlib

/-!
# Verification of the context-local variable engine of `contextvars-registry`

This file is a shallow embedding, in Lean 4, of the core of the
`contextvars-registry` repository:

* the variable cell (`ContextVarDescriptor` of
  `contextvars_registry/context_var_descriptor.py`, identical in the relevant
  logic to `ContextVarExt` of `contextvars_extras/context_var_ext.py`):
  `get` / `set` / `reset` / `delete` / `reset_to_default` / `is_set` with the
  two deletion marks `DELETED` and `RESET_TO_DEFAULT`;
* the scoped-override guard `_OverrideRegistryAttrsTemporarily` of
  `contextvars_extras/context_vars_registry.py`;
* the map-style registry operations (`__iter__`, `__getitem__`, `__delitem__`)
  of `ContextVarsRegistry` in the same file;
* the lazy, lock-protected allocation path
  (`ContextVarsRegistry.__allocate_var_descriptor` and
  `__before_set__ensure_allocated`), as an interleaving model.

Conventions of the embedding:

* The per-context slot of the underlying `contextvars.ContextVar` is
  `Option (VarVal α)`: `none` is "the slot was never written in this context";
  `VarVal.real v` is an ordinary value; `VarVal.DELETED` and
  `VarVal.RESET_TO_DEFAULT` are the two `DeletionMark` sentinels (the sum type
  mirrors the Python type `Union[_VarValueT, DeletionMark]`; the Python
  identity tests `value is DELETED` / `value is RESET_TO_DEFAULT` become
  constructor matches).
* `LookupError` (and `KeyError`) become `Except.error ()`.
* The `deferred_default` factory is modelled by the value it produces
  (the spec describes it as "a lazily-evaluated, once-per-context fallback
  value factory"); the number of times the factory has been invoked is
  tracked in `CellState.dd_calls`, which makes "invoked exactly once"
  statements expressible.
-/

set_option maxHeartbeats 1000000

/-- The two instances of the `DeletionMark` sentinel enum, as slot contents:
`VarVal.real v` is an ordinary value, `VarVal.DELETED` is written by
`ContextVarDescriptor.delete()`, `VarVal.RESET_TO_DEFAULT` by
`ContextVarDescriptor.reset_to_default()`. -/
inductive VarVal (α : Type) where
  | real (v : α)
  | DELETED
  | RESET_TO_DEFAULT
deriving DecidableEq, Repr

/-- The immutable configuration of one `ContextVarDescriptor`:
`default` models the `default` attribute (`none` = `NO_DEFAULT`), and
`deferred_default` models the `deferred_default` factory by the value it
produces (`none` = no factory). -/
structure CellSpec (α : Type) where
  default : Option α
  deferred_default : Option α
deriving DecidableEq, Repr

/-- The state of one cell as seen from one execution context:
`slot` is the per-context slot of the underlying `ContextVar`
(`none` = the slot was never written in this context), and `dd_calls`
counts how many times the `deferred_default` factory has been invoked. -/
structure CellState (α : Type) where
  slot : Option (VarVal α)
  dd_calls : Nat
deriving DecidableEq, Repr

/-- `contextvars.ContextVar.get()` with no fallback argument: the slot value
if the slot was written in this context, else the built-in default of the
`ContextVar` (which `_new_context_var` sets from `CellSpec.default`),
else `LookupError`. -/
def contextVarGet {α : Type} (spec : CellSpec α) (st : CellState α) :
    Except Unit (VarVal α) :=
  match st.slot with
  | some v => .ok v
  | none =>
    match spec.default with
    | some d => .ok (.real d)
    | none => .error ()

/-- `contextvars.ContextVar.get(fallback)`: the slot value if the slot was
written in this context, else the fallback argument (which takes precedence
over the built-in default of the `ContextVar`). -/
def contextVarGetOr {α : Type} (st : CellState α) (fallback : VarVal α) :
    VarVal α :=
  st.slot.getD fallback

/-- The closure `_method_ContextVarDescriptor_get` installed by
`_init_fast_methods` (identical to `_method_ContextVarExt_get`):
`fb = none` models calling `get()` with no argument (`default=NO_DEFAULT`),
`fb = some f` models `get(f)`.  The branches below are, in source order:
the initial `context_var_get` read, the `DELETED` check, the
`RESET_TO_DEFAULT` check (method fallback, then the static default, then the
`deferred_default` factory whose result is written back into the slot,
else `LookupError`), and the plain-value return. -/
def ContextVarDescriptor.get {α : Type} (spec : CellSpec α) (st : CellState α)
    (fb : Option α) : Except Unit (α × CellState α) :=
  let value : Except Unit (VarVal α) :=
    match fb with
    | none => contextVarGet spec st
    | some f => .ok (contextVarGetOr st (.real f))
  match value with
  | .error () => .error ()
  | .ok .DELETED =>
    match fb with
    | some f => .ok (f, st)
    | none => .error ()
  | .ok .RESET_TO_DEFAULT =>
    match fb with
    | some f => .ok (f, st)
    | none =>
      match spec.default with
      | some d => .ok (d, st)
      | none =>
        match spec.deferred_default with
        | some dd =>
          .ok (dd, { slot := some (.real dd), dd_calls := st.dd_calls + 1 })
        | none => .error ()
  | .ok (.real v) => .ok (v, st)

/-- The value computed by `ContextVarDescriptor.get`, without the updated
cell state (`Except.error ()` = the call raises `LookupError`). -/
def ContextVarDescriptor.getValue {α : Type} (spec : CellSpec α)
    (st : CellState α) (fb : Option α) : Except Unit α :=
  (ContextVarDescriptor.get spec st fb).map Prod.fst

/-- The closure `_method_ContextVarDescriptor_is_set` installed by
`_init_fast_methods`: reads the slot with the `_NOT_SET` fallback; if the
result is `_NOT_SET` or `RESET_TO_DEFAULT` it reports `on_default` when a
static default exists, else `on_deferred_default` when a factory exists,
else `False`; otherwise it reports `value is not DELETED`. -/
def ContextVarDescriptor.is_set {α : Type} (spec : CellSpec α)
    (st : CellState α) (on_default : Bool) (on_deferred_default : Bool) :
    Bool :=
  match st.slot with
  | none | some .RESET_TO_DEFAULT =>
    if spec.default.isSome then on_default
    else if spec.deferred_default.isSome then on_deferred_default
    else false
  | some .DELETED => false
  | some (.real _) => true

/-- `ContextVarDescriptor.is_gettable()`:
`self.is_set(on_default=True, on_deferred_default=True)`. -/
def ContextVarDescriptor.is_gettable {α : Type} (spec : CellSpec α)
    (st : CellState α) : Bool :=
  ContextVarDescriptor.is_set spec st true true

/-- A `contextvars.Token`: the slot state captured by `ContextVar.set`, i.e.
the slot contents from before that `set` call (`none` = the slot was
untouched before the `set`). -/
abbrev Token (α : Type) := Option (VarVal α)

/-- `ContextVarDescriptor.set` is a direct alias of `ContextVar.set`: it
writes the value into the slot and returns a token capturing the prior slot
state. -/
def ContextVarDescriptor.set {α : Type} (st : CellState α) (v : VarVal α) :
    Token α × CellState α :=
  (st.slot, { st with slot := some v })

/-- `ContextVarDescriptor.reset` is a direct alias of `ContextVar.reset`: it
restores the slot state captured in the token (including restoring the
"untouched" state). -/
def ContextVarDescriptor.reset {α : Type} (st : CellState α) (tok : Token α) :
    CellState α :=
  { st with slot := tok }

/-- `ContextVarDescriptor.reset_to_default()`: `self.set(RESET_TO_DEFAULT)`,
discarding the token. -/
def ContextVarDescriptor.reset_to_default {α : Type} (st : CellState α) :
    CellState α :=
  (ContextVarDescriptor.set st .RESET_TO_DEFAULT).2

/-- `ContextVarDescriptor.delete()`: `self.set(DELETED)`, discarding the
token. -/
def ContextVarDescriptor.delete {α : Type} (st : CellState α) : CellState α :=
  (ContextVarDescriptor.set st .DELETED).2

/-- `ContextVarDescriptor._init` followed by `_init_deferred_default`, for a
freshly created `ContextVar` (the `_context_var=None` path): the result is
`none` when the assertion
`assert not ((default is not NO_DEFAULT) and (deferred_default is not None))`
fails, else the descriptor configuration together with the slot state in the
context in which the descriptor was created (`_init_deferred_default` writes
the `RESET_TO_DEFAULT` mark into that context when a factory is configured
and `is_set()` is false). -/
def ContextVarDescriptor.init {α : Type} (default : Option α)
    (deferred_default : Option α) : Option (CellSpec α × CellState α) :=
  if default.isSome && deferred_default.isSome then none
  else
    let spec : CellSpec α := ⟨default, deferred_default⟩
    let st : CellState α := ⟨none, 0⟩
    if deferred_default.isSome &&
        !(ContextVarDescriptor.is_set spec st false false) then
      some (spec, ContextVarDescriptor.reset_to_default st)
    else
      some (spec, st)

/-! ## Cell-level claims -/

/-- Claim C2, counterexample: the spec's round-trip
`token = cell.set(v1); cell.set(v2); cell.reset(token)` does **not** restore
`get() == v1`.  `ContextVarDescriptor.set` is a direct alias of
`ContextVar.set`, so the token captures the slot state from **before**
`set(v1)`.  Concretely, for a cell with static default `0` whose slot is
untouched, running the sequence with `v1 = 1`, `v2 = 2` and then calling
`get()` yields the default `0` — not `v1 = 1`. -/
theorem C2_round_trip_counterexample :
    (let spec : CellSpec Nat := ⟨some 0, none⟩
     let st0 : CellState Nat := ⟨none, 0⟩
     let p1 := ContextVarDescriptor.set st0 (.real 1)
     let p2 := ContextVarDescriptor.set p1.2 (.real 2)
     ContextVarDescriptor.getValue spec (ContextVarDescriptor.reset p2.2 p1.1) none)
      = .ok 0
    ∧ (Except.ok 0 : Except Unit Nat) ≠ .ok 1 := by
  exact ⟨rfl, by simp⟩

/-- Claim C2, amended: `reset(token)` restores the slot state from before the
`set` call that produced the token.  Hence the correct round-trip takes the
token from the **second** `set`: for every cell and all values `v1, v2`,
after `cell.set(v1); token = cell.set(v2); cell.reset(token)`, a subsequent
`cell.get()` returns `v1` — not `v2`, and not the default. -/
theorem C2_round_trip_amended {α : Type} (spec : CellSpec α) (st : CellState α)
    (v1 v2 : α) :
    (let p1 := ContextVarDescriptor.set st (.real v1)
     let p2 := ContextVarDescriptor.set p1.2 (.real v2)
     ContextVarDescriptor.getValue spec (ContextVarDescriptor.reset p2.2 p2.1) none)
      = .ok v1 := rfl

/-- Claim C3: after `delete()` the slot holds the `DELETED` mark, so `get()`
with no fallback raises `LookupError` for **every** cell configuration —
both the `default` and the `deferred_default` tiers are skipped — and only a
call-supplied fallback is returned instead of raising.  `delete()` twice in a
row is idempotent on the cell state and `get()` fails both times with the
identical error kind. -/
theorem C3_delete_skips_default_tiers {α : Type} (spec : CellSpec α)
    (st : CellState α) (fb : α) :
    (ContextVarDescriptor.delete st).slot = some VarVal.DELETED
    ∧ ContextVarDescriptor.get spec (ContextVarDescriptor.delete st) none
        = .error ()
    ∧ ContextVarDescriptor.get spec (ContextVarDescriptor.delete st) (some fb)
        = .ok (fb, ContextVarDescriptor.delete st)
    ∧ ContextVarDescriptor.delete (ContextVarDescriptor.delete st)
        = ContextVarDescriptor.delete st
    ∧ ContextVarDescriptor.get spec
        (ContextVarDescriptor.delete (ContextVarDescriptor.delete st)) none
        = .error () := by
  exact ⟨rfl, rfl, rfl, rfl, rfl⟩

/-- Claim C4: for a cell created with `deferred_default = f` (and hence no
static default), the creation state holds the `RESET_TO_DEFAULT` mark (written
by `_init_deferred_default`); the first `get()` with no fallback invokes the
factory exactly once (`dd_calls` goes from `0` to `1`), stores the produced
value into the slot, and returns it; an immediate second `get()` returns the
memoized value with `dd_calls` unchanged.  The same holds after
`reset_to_default()` from an arbitrary state `s`: one invocation
(`s.dd_calls + 1`), then memoized reads. -/
theorem C4_deferred_default_invoked_once {α : Type} (d : α) (s : CellState α) :
    ContextVarDescriptor.init (α := α) none (some d)
      = some (⟨none, some d⟩, ⟨some VarVal.RESET_TO_DEFAULT, 0⟩)
    ∧ ContextVarDescriptor.get (⟨none, some d⟩ : CellSpec α)
        ⟨some VarVal.RESET_TO_DEFAULT, 0⟩ none
        = .ok (d, ⟨some (VarVal.real d), 1⟩)
    ∧ ContextVarDescriptor.get (⟨none, some d⟩ : CellSpec α)
        ⟨some (VarVal.real d), 1⟩ none
        = .ok (d, ⟨some (VarVal.real d), 1⟩)
    ∧ ContextVarDescriptor.reset_to_default s
        = ⟨some VarVal.RESET_TO_DEFAULT, s.dd_calls⟩
    ∧ ContextVarDescriptor.get (⟨none, some d⟩ : CellSpec α)
        (ContextVarDescriptor.reset_to_default s) none
        = .ok (d, ⟨some (VarVal.real d), s.dd_calls + 1⟩)
    ∧ ContextVarDescriptor.get (⟨none, some d⟩ : CellSpec α)
        ⟨some (VarVal.real d), s.dd_calls + 1⟩ none
        = .ok (d, ⟨some (VarVal.real d), s.dd_calls + 1⟩) := by
  exact ⟨rfl, rfl, rfl, rfl, rfl, rfl⟩

/-- Claim C5, code bug: for a cell with a `deferred_default` factory and no
static default, in a context whose slot is **untouched** (for example a
freshly spawned thread, whose context starts empty), `get()` with no fallback
raises `LookupError` — the factory is **not** invoked, contradicting the
claim, the spec's resolution order for untouched slots, and the code's own
docstring ("if you spawn 10 threads, then deferred_default is called 10
times").  The deferred tier is only reachable through the `RESET_TO_DEFAULT`
mark, which `_init_deferred_default` writes solely into the context that
created the descriptor (third conjunct); the mark is absent from contexts
that do not descend from it.  A call-supplied fallback is returned as claimed
(second conjunct). -/
theorem C5_untouched_slot_skips_deferred_default :
    ContextVarDescriptor.get (⟨none, some 7⟩ : CellSpec Nat) ⟨none, 0⟩ none
      = .error ()
    ∧ ContextVarDescriptor.get (⟨none, some 7⟩ : CellSpec Nat) ⟨none, 0⟩ (some 5)
      = .ok (5, ⟨none, 0⟩)
    ∧ ContextVarDescriptor.get (⟨none, some 7⟩ : CellSpec Nat)
        ⟨some VarVal.RESET_TO_DEFAULT, 0⟩ none
      = .ok (7, ⟨some (VarVal.real 7), 1⟩) := by
  exact ⟨rfl, rfl, rfl⟩

/-- Claim C10: `get(fallback)` is total — it never raises and never invokes
the `deferred_default` factory.  It returns the stored value when the slot
holds a real value, and the call-supplied fallback otherwise (untouched slot,
`DELETED` mark, or `RESET_TO_DEFAULT` mark), regardless of the cell's static
default or factory; the cell state is returned unchanged (in particular
`dd_calls` is unchanged: the factory is never run). -/
theorem C10_get_with_fallback_is_total {α : Type} (spec : CellSpec α)
    (st : CellState α) (fb : α) :
    ContextVarDescriptor.get spec st (some fb)
      = .ok ((match st.slot with
              | some (VarVal.real v) => v
              | _ => fb), st) := by
  cases h : st.slot with
  | none => simp [ContextVarDescriptor.get, contextVarGetOr, h]
  | some v =>
    cases v <;> simp [ContextVarDescriptor.get, contextVarGetOr, h]

/-! ## The scoped-override guard (`_OverrideRegistryAttrsTemporarily`)

The registry stores its cells on the class: `SpecMap` maps an attribute name
to the configuration of its `ContextVarDescriptor` (`none` = the class has no
descriptor for that name).  `Ctx` is the current execution context,
restricted to these cells: the per-name slot states.

`guardEnter` is `_OverrideRegistryAttrsTemporarily.__enter__`: for each
`(name, value)` pair in iteration order, if `getattr(registry_class, name)`
is a `ContextVarDescriptor` it calls `descriptor.set(value)` and pushes a
`descriptor.reset(token)` callback onto the `ExitStack`; otherwise it calls
`setattr(registry, name, value)`, which (registries have empty `__slots__`)
either allocates a fresh default-less descriptor and sets it, pushing a
`delattr` callback (`_registry_allocate_on_setattr = True`), or raises
`AttributeError` (`= False`).  In the latter case `__enter__` raises: the
`with` statement then never calls `__exit__`, so the callbacks pushed so far
are discarded — `guardEnter` returns `.error` with the registry and context
state as the exception propagates.  (Class attributes that exist but are not
descriptors — methods, properties, `ClassVar`s — are outside every claim and
are not modelled.)

`guardExit` is `ExitStack.__exit__`: it pops the callbacks in LIFO order;
a callback that raises does not stop the unwinding (the error is re-raised
at the end, reported in the `Bool` component).  A `delattr` callback runs
`ContextVarDescriptor.__delete__`: a `__get__` that raises if the cell is
not gettable, then `delete()`.

`guardRun` is the whole `with registry(**pairs): body` statement; the body is
an arbitrary transformation of the context (covering reads, writes, deletes
— and `__exit__` runs whether the body returns normally or raises, so both
exit paths of the claim are this one function). -/

abbrev Ctx (α : Type) := String → CellState α

abbrev SpecMap (α : Type) := String → Option (CellSpec α)

/-- Replaces the state of cell `n`, leaving every other cell unchanged. -/
def updCell {α : Type} (ctx : Ctx α) (n : String) (st : CellState α) : Ctx α :=
  fun m => if m = n then st else ctx m

/-- One callback pushed onto the `ExitStack` by `__enter__`:
`reset n tok` is `self.callback(descriptor.reset, reset_token)`;
`delAttr n` is `self.callback(delattr, registry, attr_name)`. -/
inductive Undo (α : Type) where
  | reset (n : String) (tok : Token α)
  | delAttr (n : String)

/-- The state after a successful `__enter__`: the (possibly grown) descriptor
map, the context with all overrides applied, and the pushed callbacks in push
order. -/
structure GuardEntered (α : Type) where
  specs : SpecMap α
  ctx : Ctx α
  undo : List (Undo α)

/-- `_OverrideRegistryAttrsTemporarily.__enter__` (see the section comment).
`.error (specs, ctx)` is the state left behind when `__enter__` raises
partway: the overrides applied so far are still in `ctx`, and the callbacks
accumulated in `undo` are discarded because `__exit__` will never run. -/
def guardEnter {α : Type} (autoAlloc : Bool) :
    SpecMap α → Ctx α → List (Undo α) → List (String × α) →
    Except (SpecMap α × Ctx α) (GuardEntered α)
  | specs, ctx, undo, [] => .ok ⟨specs, ctx, undo⟩
  | specs, ctx, undo, (n, v) :: rest =>
    match specs n with
    | some _ =>
      let p := ContextVarDescriptor.set (ctx n) (.real v)
      guardEnter autoAlloc specs (updCell ctx n p.2)
        (undo ++ [Undo.reset n p.1]) rest
    | none =>
      if autoAlloc then
        let specs1 : SpecMap α :=
          fun m => if m = n then some ⟨none, none⟩ else specs m
        let p := ContextVarDescriptor.set (ctx n) (.real v)
        guardEnter autoAlloc specs1 (updCell ctx n p.2)
          (undo ++ [Undo.delAttr n]) rest
      else
        .error (specs, ctx)

/-- `delattr(registry, n)` during unwinding: `ContextVarDescriptor.__delete__`
first runs `__get__` (which raises `ContextVarNotSetError` when `get()`
raises `LookupError` — reported in the `Bool`), then `delete()`. -/
def runDelAttr {α : Type} (specs : SpecMap α) (ctx : Ctx α) (n : String) :
    Ctx α × Bool :=
  match specs n with
  | none => (ctx, true)
  | some sp =>
    match ContextVarDescriptor.get sp (ctx n) none with
    | .error _ => (ctx, true)
    | .ok (_, st) => (updCell ctx n (ContextVarDescriptor.delete st), false)

/-- Runs one popped `ExitStack` callback; the `Bool` accumulates "some
callback raised". -/
def undoStep {α : Type} (specs : SpecMap α) (acc : Ctx α × Bool) (u : Undo α) :
    Ctx α × Bool :=
  match u with
  | .reset n tok =>
    (updCell acc.1 n (ContextVarDescriptor.reset (acc.1 n) tok), acc.2)
  | .delAttr n =>
    let p := runDelAttr specs acc.1 n
    (p.1, acc.2 || p.2)

/-- `ExitStack.__exit__`: pops the callbacks in LIFO order (reverse of push
order), running every one of them even if some raise. -/
def guardExit {α : Type} (specs : SpecMap α) (ctx : Ctx α)
    (undo : List (Undo α)) : Ctx α × Bool :=
  undo.reverse.foldl (undoStep specs) (ctx, false)

/-- The observable outcome of `with registry(**pairs): body`. -/
structure GuardOutcome (α : Type) where
  specs : SpecMap α
  ctx : Ctx α
  enterFailed : Bool
  exitFailed : Bool

/-- The whole `with registry(**pairs): body` statement: on a successful
`__enter__`, the body runs and then `__exit__` unwinds (whether the body
returned or raised); when `__enter__` raises, neither the body nor
`__exit__` runs. -/
def guardRun {α : Type} (autoAlloc : Bool) (specs : SpecMap α) (ctx : Ctx α)
    (pairs : List (String × α)) (body : Ctx α → Ctx α) : GuardOutcome α :=
  match guardEnter autoAlloc specs ctx [] pairs with
  | .error (s, c) => ⟨s, c, true, false⟩
  | .ok e =>
    let p := guardExit e.specs (body e.ctx) e.undo
    ⟨e.specs, p.1, false, p.2⟩

/-! ### Supporting lemmas -/

/-- Closed form of `ContextVarDescriptor.getValue`: the value produced (or the
`LookupError`) as a function of the slot, the call-supplied fallback, and the
cell configuration.  Note the asymmetry between the `RESET_TO_DEFAULT` row
(which reaches the `deferred_default` tier) and the untouched row (which
does not). -/
theorem getValue_closed_form {α : Type} (sp : CellSpec α) (st : CellState α)
    (fb : Option α) :
    ContextVarDescriptor.getValue sp st fb =
      match st.slot, fb with
      | some (.real v), _ => .ok v
      | some .DELETED, some f => .ok f
      | some .DELETED, none => .error ()
      | some .RESET_TO_DEFAULT, some f => .ok f
      | some .RESET_TO_DEFAULT, none =>
        (match sp.default, sp.deferred_default with
         | some d, _ => .ok d
         | none, some dd => .ok dd
         | none, none => .error ())
      | none, some f => .ok f
      | none, none =>
        (match sp.default with
         | some d => .ok d
         | none => .error ()) := by
  rcases hsl : st.slot with _ | v
  · rcases fb with _ | f
    · rcases hd : sp.default with _ | d <;>
        simp [ContextVarDescriptor.getValue, ContextVarDescriptor.get,
          contextVarGet, Except.map, hsl, hd]
    · simp [ContextVarDescriptor.getValue, ContextVarDescriptor.get,
        contextVarGetOr, Except.map, hsl]
  · rcases v with v | _ | _ <;> rcases fb with _ | f <;>
      rcases hd : sp.default with _ | d <;>
      rcases hdd : sp.deferred_default with _ | dd <;>
      simp [ContextVarDescriptor.getValue, ContextVarDescriptor.get,
        contextVarGet, contextVarGetOr, Except.map, hsl, hd, hdd]

/-- The value computed by `get` (though not the updated `dd_calls` counter)
depends only on the slot contents. -/
theorem getValue_depends_only_on_slot {α : Type} (sp : CellSpec α)
    (s1 s2 : CellState α) (h : s1.slot = s2.slot) (fb : Option α) :
    ContextVarDescriptor.getValue sp s1 fb
      = ContextVarDescriptor.getValue sp s2 fb := by
  rw [getValue_closed_form, getValue_closed_form, h]

/-- When every overridden name has a descriptor and the names are distinct
(`__enter__` iterates a kwargs dict, so names are unique), `__enter__`
succeeds, leaves the descriptor map unchanged, applies every override, and
pushes one reset callback per pair, in iteration order, whose token is the
pre-entry slot state of that name. -/
theorem guardEnter_all_descriptors {α : Type} (a : Bool) (specs : SpecMap α) :
    ∀ (pairs : List (String × α)) (ctx : Ctx α) (undo0 : List (Undo α)),
      (∀ p ∈ pairs, (specs p.1).isSome = true) →
      (pairs.map Prod.fst).Nodup →
      ∃ e : GuardEntered α,
        guardEnter a specs ctx undo0 pairs = .ok e
        ∧ e.specs = specs
        ∧ e.undo = undo0 ++ pairs.map (fun p => Undo.reset p.1 (ctx p.1).slot)
        ∧ (∀ p ∈ pairs, e.ctx p.1 = { ctx p.1 with slot := some (.real p.2) })
        ∧ (∀ m, m ∉ pairs.map Prod.fst → e.ctx m = ctx m) := by
  intro pairs
  induction pairs with
  | nil =>
    intro ctx undo0 _ _
    exact ⟨⟨specs, ctx, undo0⟩, rfl, rfl, by simp, by simp, fun m _ => rfl⟩
  | cons hd tl ih =>
    intro ctx undo0 hdesc hnd
    obtain ⟨n, v⟩ := hd
    have hn : (specs n).isSome = true := hdesc (n, v) (by simp)
    obtain ⟨sp, hsp⟩ := Option.isSome_iff_exists.mp hn
    have hnd12 := List.nodup_cons.mp
      (show (n :: tl.map Prod.fst).Nodup from hnd)
    have hnotin : n ∉ tl.map Prod.fst := hnd12.1
    have hnd2 : (tl.map Prod.fst).Nodup := hnd12.2
    obtain ⟨e, he, hes, heu, hectx, heoth⟩ :=
      ih (updCell ctx n { ctx n with slot := some (.real v) })
        (undo0 ++ [Undo.reset n (ctx n).slot])
        (fun p hp => hdesc p (List.mem_cons_of_mem _ hp)) hnd2
    have hstep : guardEnter a specs ctx undo0 ((n, v) :: tl)
        = guardEnter a specs (updCell ctx n { ctx n with slot := some (.real v) })
            (undo0 ++ [Undo.reset n (ctx n).slot]) tl := by
      simp [guardEnter, hsp, ContextVarDescriptor.set]
    have hupd : ∀ p ∈ tl,
        updCell ctx n { ctx n with slot := some (.real v) } p.1 = ctx p.1 := by
      intro p hp
      have hne : p.1 ≠ n := by
        intro hc
        exact hnotin (hc ▸ List.mem_map_of_mem Prod.fst hp)
      simp [updCell, hne]
    refine ⟨e, by rw [hstep]; exact he, hes, ?_, ?_, ?_⟩
    · rw [heu]
      have hmap : tl.map
            (fun p => Undo.reset p.1
              ((updCell ctx n { ctx n with slot := some (.real v) } p.1)).slot)
          = tl.map (fun p => Undo.reset p.1 (ctx p.1).slot) := by
        refine List.map_congr_left ?_
        intro p hp
        rw [hupd p hp]
      rw [hmap]
      simp
    · intro p hp
      rcases List.mem_cons.mp hp with hph | hpt
      · subst hph
        have := heoth n hnotin
        rw [this]
        simp [updCell]
      · rw [hectx p hpt, hupd p hpt]
    · intro m hm
      have hm1 : m ≠ n := by
        intro hc; exact hm (by simp [hc])
      have hm2 : m ∉ tl.map Prod.fst := by
        intro hc; exact hm (by simp [hc])
      rw [heoth m hm2]
      simp [updCell, hm1]

/-- Unfolding `guardExit` one popped callback at a time (the head of the
callback list was pushed first, so it runs last). -/
theorem guardExit_cons {α : Type} (specs : SpecMap α) (ctx : Ctx α)
    (u : Undo α) (us : List (Undo α)) :
    guardExit specs ctx (u :: us) = undoStep specs (guardExit specs ctx us) u := by
  simp [guardExit, List.reverse_cons, List.foldl_append]

/-- Unwinding a stack of reset callbacks over distinct names never raises,
restores each named slot to exactly the token captured for it, and leaves
every other cell untouched — whatever the context looks like when the
unwinding starts. -/
theorem guardExit_resets {α : Type} (specs : SpecMap α) :
    ∀ (rs : List (String × Token α)) (ctx : Ctx α),
      (rs.map Prod.fst).Nodup →
      (guardExit specs ctx (rs.map fun r => Undo.reset r.1 r.2)).2 = false
      ∧ (∀ r ∈ rs,
          ((guardExit specs ctx (rs.map fun r => Undo.reset r.1 r.2)).1 r.1).slot
            = r.2)
      ∧ (∀ m, m ∉ rs.map Prod.fst →
          (guardExit specs ctx (rs.map fun r => Undo.reset r.1 r.2)).1 m
            = ctx m) := by
  intro rs
  induction rs with
  | nil =>
    intro ctx _
    exact ⟨rfl, by simp, fun m _ => rfl⟩
  | cons hd tl ih =>
    intro ctx hnd
    obtain ⟨n, tok⟩ := hd
    have hnd12 := List.nodup_cons.mp
      (show (n :: tl.map Prod.fst).Nodup from hnd)
    have hnotin : n ∉ tl.map Prod.fst := hnd12.1
    have hnd2 : (tl.map Prod.fst).Nodup := hnd12.2
    obtain ⟨ihf, ihslot, ihoth⟩ := ih ctx hnd2
    have hcons : guardExit specs ctx (((n, tok) :: tl).map fun r => Undo.reset r.1 r.2)
        = (updCell (guardExit specs ctx (tl.map fun r => Undo.reset r.1 r.2)).1 n
            (ContextVarDescriptor.reset
              ((guardExit specs ctx (tl.map fun r => Undo.reset r.1 r.2)).1 n) tok),
           (guardExit specs ctx (tl.map fun r => Undo.reset r.1 r.2)).2) := by
      rw [List.map_cons, guardExit_cons]
      rfl
    refine ⟨?_, ?_, ?_⟩
    · rw [hcons]
      exact ihf
    · intro r hr
      rcases List.mem_cons.mp hr with hrh | hrt
      · subst hrh
        rw [hcons]
        simp [updCell, ContextVarDescriptor.reset]
      · have hne : r.1 ≠ n := by
          intro hc
          exact hnotin (hc ▸ List.mem_map_of_mem Prod.fst hrt)
        rw [hcons]
        simpa [updCell, hne] using ihslot r hrt
    · intro m hm
      have hm1 : m ≠ n := by
        intro hc; exact hm (by simp [hc])
      have hm2 : m ∉ tl.map Prod.fst := by
        intro hc; exact hm (by simp [hc])
      rw [hcons]
      simpa [updCell, hm1] using ihoth m hm2

/-- Claim C1: for every registry whose overridden attribute names all refer
to context-var descriptor cells (and are distinct, as kwargs keys are), the
guard produced by `registry(**pairs)`: (i) enters successfully, setting each
named cell in iteration order — after entry each overridden slot holds its
override, and the undo stack holds one reset callback per pair, in iteration
order, with the pre-entry slot state as token; (ii) on exit — the body is an
arbitrary context transformation, covering both normal completion and a
raised exception, since `ExitStack.__exit__` unwinds either way — pops the
callbacks in LIFO order without raising and restores every overridden slot
to exactly its pre-entry state (including the untouched state); so (iii)
after exit each overridden cell's `get()` yields its pre-guard result. -/
theorem C1_scoped_override_sets_and_restores {α : Type} (autoAlloc : Bool)
    (specs : SpecMap α) (ctx : Ctx α) (pairs : List (String × α))
    (body : Ctx α → Ctx α)
    (hdesc : ∀ p ∈ pairs, (specs p.1).isSome = true)
    (hnd : (pairs.map Prod.fst).Nodup) :
    ∃ e : GuardEntered α,
      guardEnter autoAlloc specs ctx [] pairs = .ok e
      ∧ (∀ p ∈ pairs, (e.ctx p.1).slot = some (VarVal.real p.2))
      ∧ e.undo = pairs.map (fun p => Undo.reset p.1 (ctx p.1).slot)
      ∧ (guardRun autoAlloc specs ctx pairs body).enterFailed = false
      ∧ (guardRun autoAlloc specs ctx pairs body).exitFailed = false
      ∧ (∀ p ∈ pairs,
          ((guardRun autoAlloc specs ctx pairs body).ctx p.1).slot
            = (ctx p.1).slot)
      ∧ (∀ p ∈ pairs, ∀ sp, specs p.1 = some sp → ∀ fb,
          ContextVarDescriptor.getValue sp
              ((guardRun autoAlloc specs ctx pairs body).ctx p.1) fb
            = ContextVarDescriptor.getValue sp (ctx p.1) fb) := by
  obtain ⟨e, he, hes, heu, hectx, heoth⟩ :=
    guardEnter_all_descriptors autoAlloc specs pairs ctx [] hdesc hnd
  have heu2 : e.undo
      = (pairs.map fun p => (p.1, (ctx p.1).slot)).map
          (fun r => Undo.reset r.1 r.2) := by
    rw [heu, List.map_map]
    simp [Function.comp]
  have hndrs : ((pairs.map fun p => (p.1, (ctx p.1).slot)).map Prod.fst).Nodup := by
    rw [List.map_map]
    simpa [Function.comp] using hnd
  obtain ⟨hflag, hslots, _⟩ :=
    guardExit_resets e.specs (pairs.map fun p => (p.1, (ctx p.1).slot))
      (body e.ctx) hndrs
  have hrun : guardRun autoAlloc specs ctx pairs body
      = ⟨e.specs, (guardExit e.specs (body e.ctx) e.undo).1, false,
         (guardExit e.specs (body e.ctx) e.undo).2⟩ := by
    simp [guardRun, he]
  have hslotfinal : ∀ p ∈ pairs,
      ((guardRun autoAlloc specs ctx pairs body).ctx p.1).slot
        = (ctx p.1).slot := by
    intro p hp
    rw [hrun]
    show ((guardExit e.specs (body e.ctx) e.undo).1 p.1).slot = (ctx p.1).slot
    rw [heu2]
    exact hslots (p.1, (ctx p.1).slot)
      (List.mem_map_of_mem (fun p => (p.1, (ctx p.1).slot)) hp)
  refine ⟨e, he, ?_, by simpa using heu, ?_, ?_, hslotfinal, ?_⟩
  · intro p hp
    rw [hectx p hp]
  · rw [hrun]
  · rw [hrun]
    show (guardExit e.specs (body e.ctx) e.undo).2 = false
    rw [heu2]
    exact hflag
  · intro p hp sp _ fb
    exact getValue_depends_only_on_slot sp _ _ (hslotfinal p hp) fb

/-- Witness for C1: two declared cells `a` (untouched) and `b` (previously
set to `10`), overridden with `1` and `2`, with a body that overwrites both
cells and a third one; after the guard, `a` is restored to untouched and
`b` to `10`, and `get()` on each yields its pre-guard value. -/
theorem C1_witness :
    (∀ p ∈ [("a", (1 : Nat)), ("b", 2)],
      (((fun _ => some ⟨some 0, none⟩) : SpecMap Nat) p.1).isSome = true)
    ∧ (([("a", (1 : Nat)), ("b", 2)].map Prod.fst).Nodup)
    ∧ (∃ e : GuardEntered Nat,
        guardEnter true (fun _ => some ⟨some 0, none⟩)
          (fun m => if m = "b" then ⟨some (VarVal.real 10), 0⟩ else ⟨none, 0⟩)
          [] [("a", 1), ("b", 2)] = .ok e
        ∧ (∀ p ∈ [("a", (1 : Nat)), ("b", 2)],
            (e.ctx p.1).slot = some (VarVal.real p.2))
        ∧ e.undo = [("a", (1 : Nat)), ("b", 2)].map
            (fun p => Undo.reset p.1
              (((fun m => if m = "b" then (⟨some (VarVal.real 10), 0⟩ : CellState Nat)
                  else ⟨none, 0⟩) : Ctx Nat) p.1).slot)
        ∧ (guardRun true (fun _ => some ⟨some 0, none⟩)
            (fun m => if m = "b" then ⟨some (VarVal.real 10), 0⟩ else ⟨none, 0⟩)
            [("a", 1), ("b", 2)]
            (fun c => updCell (updCell c "a" ⟨some VarVal.DELETED, 3⟩) "c"
              ⟨some (VarVal.real 77), 0⟩)).enterFailed = false
        ∧ (guardRun true (fun _ => some ⟨some 0, none⟩)
            (fun m => if m = "b" then ⟨some (VarVal.real 10), 0⟩ else ⟨none, 0⟩)
            [("a", 1), ("b", 2)]
            (fun c => updCell (updCell c "a" ⟨some VarVal.DELETED, 3⟩) "c"
              ⟨some (VarVal.real 77), 0⟩)).exitFailed = false
        ∧ (∀ p ∈ [("a", (1 : Nat)), ("b", 2)],
            ((guardRun true (fun _ => some ⟨some 0, none⟩)
              (fun m => if m = "b" then ⟨some (VarVal.real 10), 0⟩ else ⟨none, 0⟩)
              [("a", 1), ("b", 2)]
              (fun c => updCell (updCell c "a" ⟨some VarVal.DELETED, 3⟩) "c"
                ⟨some (VarVal.real 77), 0⟩)).ctx p.1).slot
              = (((fun m => if m = "b" then (⟨some (VarVal.real 10), 0⟩ : CellState Nat)
                  else ⟨none, 0⟩) : Ctx Nat) p.1).slot)
        ∧ (∀ p ∈ [("a", (1 : Nat)), ("b", 2)], ∀ sp,
            ((fun _ => some ⟨some 0, none⟩) : SpecMap Nat) p.1 = some sp → ∀ fb,
            ContextVarDescriptor.getValue sp
                ((guardRun true (fun _ => some ⟨some 0, none⟩)
                  (fun m => if m = "b" then ⟨some (VarVal.real 10), 0⟩ else ⟨none, 0⟩)
                  [("a", 1), ("b", 2)]
                  (fun c => updCell (updCell c "a" ⟨some VarVal.DELETED, 3⟩) "c"
                    ⟨some (VarVal.real 77), 0⟩)).ctx p.1) fb
              = ContextVarDescriptor.getValue sp
                  (((fun m => if m = "b" then (⟨some (VarVal.real 10), 0⟩ : CellState Nat)
                      else ⟨none, 0⟩) : Ctx Nat) p.1) fb)) := by
  refine ⟨by decide, by decide, ?_⟩
  exact C1_scoped_override_sets_and_restores true
    (fun _ => some ⟨some 0, none⟩)
    (fun m => if m = "b" then ⟨some (VarVal.real 10), 0⟩ else ⟨none, 0⟩)
    [("a", 1), ("b", 2)]
    (fun c => updCell (updCell c "a" ⟨some VarVal.DELETED, 3⟩) "c"
      ⟨some (VarVal.real 77), 0⟩)
    (by decide) (by decide)

/-- Claim C6, code bug: with auto-allocation disabled and a declared cell
`locale` (default `0`), entering `registry(locale=1, timezone=2)` fails at
`timezone` (`setattr` raises `AttributeError`), `__enter__` raises, and —
because `with` never calls `__exit__` when `__enter__` raises — the already
applied override of `locale` is **not** unwound: after the error propagates,
`locale` still holds `1`, although its pre-entry slot was untouched.  This
contradicts the claim (and the spec's failure semantics for the scoped
override). -/
theorem C6_partial_entry_failure_leaks_overrides :
    (guardRun false
      (fun n => if n = "locale" then some ⟨some 0, none⟩ else none)
      (fun _ => ⟨none, 0⟩) [("locale", (1 : Nat)), ("timezone", 2)]
      id).enterFailed = true
    ∧ ((guardRun false
        (fun n => if n = "locale" then some ⟨some 0, none⟩ else none)
        (fun _ => ⟨none, 0⟩) [("locale", (1 : Nat)), ("timezone", 2)]
        id).ctx "locale").slot = some (VarVal.real 1)
    ∧ ((fun _ => (⟨none, 0⟩ : CellState Nat)) : Ctx Nat) "locale"
        = ⟨none, 0⟩ := by
  exact ⟨by decide, by decide, rfl⟩

/-! ## Map-style registry operations (`ContextVarsRegistry`)

A registry class is its insertion-ordered descriptor dict
`_registry_var_descriptors`, modelled as an association list (Python dicts
preserve insertion order and have unique keys). -/

/-- `ContextVarsRegistry.__iter__`: the names, in insertion order, of the
descriptors reporting `is_set(on_default=True, on_deferred_default=False)`. -/
def registryKeys {α : Type} (vars : List (String × CellSpec α)) (ctx : Ctx α) :
    List String :=
  (vars.filter fun p =>
    ContextVarDescriptor.is_set p.2 (ctx p.1) true false).map Prod.fst

/-- `ContextVarsRegistry.__getitem__`: looks the name up in the descriptor
dict (`KeyError` when absent), then returns `ctx_var.get()`, translating
`LookupError` into `KeyError`. -/
def registryGetItem {α : Type} (vars : List (String × CellSpec α))
    (ctx : Ctx α) (k : String) : Except Unit α :=
  match vars.find? (fun p => p.1 == k) with
  | none => .error ()
  | some p => ContextVarDescriptor.getValue p.2 (ctx p.1) none

/-- `dict(registry)` / `items()` via the `MutableMapping` mixin: the iterated
keys, each paired with its `__getitem__` result. -/
def registryItems {α : Type} (vars : List (String × CellSpec α))
    (ctx : Ctx α) : List (String × Except Unit α) :=
  (registryKeys vars ctx).map fun k => (k, registryGetItem vars ctx k)

/-- `ContextVarsRegistry.__delitem__` (for a registry with auto-allocation
enabled, the default): `__before_set__ensure_allocated` first — an unknown
name is allocated as a descriptor with `default=NO_DEFAULT` — then `KeyError`
unless `ctx_var.is_gettable()`, else the cell-level `delete()`.  The returned
`Bool` is "`KeyError` was raised". -/
def registryDelItem {α : Type} (vars : List (String × CellSpec α))
    (ctx : Ctx α) (k : String) :
    Bool × List (String × CellSpec α) × Ctx α :=
  match vars.find? (fun p => p.1 == k) with
  | some p =>
    if ContextVarDescriptor.is_gettable p.2 (ctx p.1) then
      (false, vars, updCell ctx p.1 (ContextVarDescriptor.delete (ctx p.1)))
    else
      (true, vars, ctx)
  | none =>
    if ContextVarDescriptor.is_gettable (⟨none, none⟩ : CellSpec α) (ctx k) then
      (false, vars ++ [(k, ⟨none, none⟩)],
       updCell ctx k (ContextVarDescriptor.delete (ctx k)))
    else
      (true, vars ++ [(k, ⟨none, none⟩)], ctx)

/-- Semantic reading of `is_set(on_default=True, on_deferred_default=False)`:
the slot holds an explicitly set, non-deleted value, or the cell is in the
untouched / reset-to-default state and carries a static default. -/
theorem is_set_on_default_iff {α : Type} (sp : CellSpec α) (st : CellState α) :
    ContextVarDescriptor.is_set sp st true false = true ↔
      ((∃ v, st.slot = some (VarVal.real v))
       ∨ ((st.slot = none ∨ st.slot = some VarVal.RESET_TO_DEFAULT)
          ∧ sp.default.isSome = true)) := by
  rcases hsl : st.slot with _ | v
  · rcases hd : sp.default with _ | d <;>
      rcases hdd : sp.deferred_default with _ | dd <;>
      simp [ContextVarDescriptor.is_set, hsl, hd, hdd]
  · rcases v with w | _ | _ <;>
      rcases hd : sp.default with _ | d <;>
      rcases hdd : sp.deferred_default with _ | dd <;>
      simp [ContextVarDescriptor.is_set, hsl, hd, hdd]

/-- Semantic reading of `is_gettable()` =
`is_set(on_default=True, on_deferred_default=True)`: an explicitly set,
non-deleted value, or the untouched / reset state backed by a static default
or a deferred-default factory. -/
theorem is_gettable_iff {α : Type} (sp : CellSpec α) (st : CellState α) :
    ContextVarDescriptor.is_gettable sp st = true ↔
      ((∃ v, st.slot = some (VarVal.real v))
       ∨ ((st.slot = none ∨ st.slot = some VarVal.RESET_TO_DEFAULT)
          ∧ (sp.default.isSome = true ∨ sp.deferred_default.isSome = true))) := by
  rcases hsl : st.slot with _ | v
  · rcases hd : sp.default with _ | d <;>
      rcases hdd : sp.deferred_default with _ | dd <;>
      simp [ContextVarDescriptor.is_gettable, ContextVarDescriptor.is_set,
        hsl, hd, hdd]
  · rcases v with w | _ | _ <;>
      rcases hd : sp.default with _ | d <;>
      rcases hdd : sp.deferred_default with _ | dd <;>
      simp [ContextVarDescriptor.is_gettable, ContextVarDescriptor.is_set,
        hsl, hd, hdd]

/-- In a registry whose descriptor names are unique (a Python dict), `find?`
by name returns exactly the member entry. -/
theorem find_name_of_mem {α : Type} :
    ∀ (vars : List (String × CellSpec α)) (p : String × CellSpec α),
      (vars.map Prod.fst).Nodup → p ∈ vars →
      vars.find? (fun q => q.1 == p.1) = some p := by
  intro vars
  induction vars with
  | nil =>
    intro p _ hp
    simp at hp
  | cons hd tl ih =>
    intro p hnd hp
    have hnd12 := List.nodup_cons.mp
      (show (hd.1 :: tl.map Prod.fst).Nodup from hnd)
    rcases List.mem_cons.mp hp with rfl | hpt
    · simp [List.find?]
    · have hne : hd.1 ≠ p.1 := by
        intro hc
        exact hnd12.1 (hc ▸ List.mem_map_of_mem Prod.fst hpt)
      rw [List.find?_cons_of_neg _ (by simpa using hne)]
      exact ih p hnd12.2 hpt

/-- A cell reported by `is_set(on_default=True, on_deferred_default=False)`
is gettable: its `get()` resolves to a value. -/
theorem getValue_of_is_set_on_default {α : Type} (sp : CellSpec α)
    (st : CellState α) (h : ContextVarDescriptor.is_set sp st true false = true) :
    ∃ v, ContextVarDescriptor.getValue sp st none = .ok v := by
  rcases (is_set_on_default_iff sp st).mp h with ⟨v, hv⟩ | ⟨hsl, hd⟩
  · exact ⟨v, by rw [getValue_closed_form, hv]⟩
  · obtain ⟨d, hd⟩ := Option.isSome_iff_exists.mp hd
    rcases hsl with hsl | hsl <;>
      exact ⟨d, by rw [getValue_closed_form, hsl]; simp [hd]⟩

/-- Claim C7: iterating a registry (`keys`/`items`/`dict` conversion) yields,
in declaration (insertion) order, exactly the names whose cell holds an
explicitly set non-deleted value or is in the untouched/reset state with a
static default — the names with
`is_set(on_default=True, on_deferred_default=False)`; every yielded name maps
to a value (no `KeyError`).  `is_set()` without flags is `False` for an
un-set defaulted cell.  In particular, before any writes, a registry with a
defaulted cell `locale`, a bare cell `timezone`, and a deferred-default-only
cell `lang` enumerates as just `locale ↦ default`. -/
theorem C7_enumeration_includes_defaulted_cells {α : Type}
    (vars : List (String × CellSpec α)) (ctx : Ctx α)
    (hnd : (vars.map Prod.fst).Nodup) :
    (∀ p ∈ vars,
      (p.1 ∈ registryKeys vars ctx ↔
        ((∃ v, (ctx p.1).slot = some (VarVal.real v))
         ∨ (((ctx p.1).slot = none
             ∨ (ctx p.1).slot = some VarVal.RESET_TO_DEFAULT)
            ∧ p.2.default.isSome = true))))
    ∧ (registryKeys vars ctx).Sublist (vars.map Prod.fst)
    ∧ (∀ p ∈ vars, p.1 ∈ registryKeys vars ctx →
        ∃ v, registryGetItem vars ctx p.1 = .ok v)
    ∧ (∀ (d : α) (dd : Option α) (c : Nat),
        ContextVarDescriptor.is_set ⟨some d, dd⟩ ⟨none, c⟩ false false = false)
    ∧ (∀ d d2 : α,
        registryItems
          [("locale", ⟨some d, none⟩), ("timezone", ⟨none, none⟩),
           ("lang", ⟨none, some d2⟩)]
          (fun n => if n = "lang" then ⟨some VarVal.RESET_TO_DEFAULT, 0⟩
                    else ⟨none, 0⟩)
          = [("locale", Except.ok d)]) := by
  have hinj : ∀ q ∈ vars, ∀ p ∈ vars, q.1 = p.1 → q = p := by
    intro q hq p hp hqp
    have h1 := find_name_of_mem vars q hnd hq
    have h2 := find_name_of_mem vars p hnd hp
    rw [hqp] at h1
    rw [h1] at h2
    exact Option.some.inj h2
  have hmem : ∀ p ∈ vars,
      (p.1 ∈ registryKeys vars ctx ↔
        ContextVarDescriptor.is_set p.2 (ctx p.1) true false = true) := by
    intro p hp
    constructor
    · intro h
      obtain ⟨q, hq, hq1⟩ := List.mem_map.mp h
      obtain ⟨hqv, hqQ⟩ := List.mem_filter.mp hq
      have hqe : q = p := hinj q hqv p hp hq1
      rw [hqe] at hqQ
      exact hqQ
    · intro h
      exact List.mem_map_of_mem Prod.fst (List.mem_filter.mpr ⟨hp, h⟩)
  refine ⟨?_, ?_, ?_, fun d dd c => rfl, fun d d2 => rfl⟩
  · intro p hp
    rw [hmem p hp]
    exact is_set_on_default_iff p.2 (ctx p.1)
  · exact List.Sublist.map Prod.fst (List.filter_sublist vars)
  · intro p hp hk
    have hset := (hmem p hp).mp hk
    have hfind := find_name_of_mem vars p hnd hp
    obtain ⟨v, hv⟩ := getValue_of_is_set_on_default p.2 (ctx p.1) hset
    exact ⟨v, by rw [registryGetItem, hfind]; exact hv⟩

/-- Witness for C7: a registry declaring `a` (default `5`, never written) and
`b` (no default, never written), in a fresh context: `a` is enumerated and
maps to `5`, `b` is absent. -/
theorem C7_witness :
    (([("a", (⟨some 5, none⟩ : CellSpec Nat)), ("b", ⟨none, none⟩)].map
        Prod.fst).Nodup)
    ∧ ((∀ p ∈ [("a", (⟨some 5, none⟩ : CellSpec Nat)), ("b", ⟨none, none⟩)],
        (p.1 ∈ registryKeys
            [("a", ⟨some 5, none⟩), ("b", ⟨none, none⟩)]
            (fun _ => ⟨none, 0⟩) ↔
          ((∃ v, (((fun _ => ⟨none, 0⟩) : Ctx Nat) p.1).slot
              = some (VarVal.real v))
           ∨ (((((fun _ => ⟨none, 0⟩) : Ctx Nat) p.1).slot = none
               ∨ (((fun _ => ⟨none, 0⟩) : Ctx Nat) p.1).slot
                   = some VarVal.RESET_TO_DEFAULT)
              ∧ p.2.default.isSome = true))))
      ∧ (registryKeys [("a", (⟨some 5, none⟩ : CellSpec Nat)), ("b", ⟨none, none⟩)]
          (fun _ => ⟨none, 0⟩)).Sublist
          ([("a", (⟨some 5, none⟩ : CellSpec Nat)), ("b", ⟨none, none⟩)].map
            Prod.fst)
      ∧ (∀ p ∈ [("a", (⟨some 5, none⟩ : CellSpec Nat)), ("b", ⟨none, none⟩)],
          p.1 ∈ registryKeys [("a", ⟨some 5, none⟩), ("b", ⟨none, none⟩)]
            (fun _ => ⟨none, 0⟩) →
          ∃ v, registryGetItem [("a", ⟨some 5, none⟩), ("b", ⟨none, none⟩)]
            (fun _ => ⟨none, 0⟩) p.1 = .ok v)
      ∧ (∀ (d : Nat) (dd : Option Nat) (c : Nat),
          ContextVarDescriptor.is_set ⟨some d, dd⟩ ⟨none, c⟩ false false = false)
      ∧ (∀ d d2 : Nat,
          registryItems
            [("locale", ⟨some d, none⟩), ("timezone", ⟨none, none⟩),
             ("lang", ⟨none, some d2⟩)]
            (fun n => if n = "lang" then ⟨some VarVal.RESET_TO_DEFAULT, 0⟩
                      else ⟨none, 0⟩)
            = [("locale", Except.ok d)])) := by
  exact ⟨by decide,
    C7_enumeration_includes_defaulted_cells
      [("a", ⟨some 5, none⟩), ("b", ⟨none, none⟩)]
      (fun _ => ⟨none, 0⟩) (by decide)⟩

/-- Claim C8, counterexample: `del registry[name]` does **not** raise
`KeyError` for a cell that was never set but carries a static default: for a
registry declaring `locale` with default `0` and a fresh context (the cell is
not set: `is_set()` is `False`, second conjunct), the delete succeeds (first
conjunct) and writes the `DELETED` mark (third conjunct) — the code gates on
`is_gettable()`, which counts the default tiers, so the claim's "raises
KeyError whenever the cell was never set — including cells that merely carry
a default" is false. -/
theorem C8_delete_defaulted_cell_counterexample :
    (registryDelItem [("locale", (⟨some 0, none⟩ : CellSpec Nat))]
        (fun _ => ⟨none, 0⟩) "locale").1 = false
    ∧ ContextVarDescriptor.is_set (⟨some 0, none⟩ : CellSpec Nat) ⟨none, 0⟩
        false false = false
    ∧ ((registryDelItem [("locale", (⟨some 0, none⟩ : CellSpec Nat))]
        (fun _ => ⟨none, 0⟩) "locale").2.2 "locale").slot
        = some VarVal.DELETED := by
  exact ⟨by decide, rfl, by decide⟩

/-- Claim C8, amended: `del registry[name]` first allocates the cell if
needed (a default-less descriptor, consistent with write — last conjunct),
then raises `KeyError` exactly when the cell is not gettable — never set
**and** backed by neither a static default nor a deferred-default factory, or
explicitly deleted (second conjunct gives the semantic form).  When
`KeyError` is raised the context is left unchanged; otherwise the cell-level
delete writes the `DELETED` mark, touching no other cell. -/
theorem C8_delitem_raises_iff_not_gettable {α : Type}
    (vars : List (String × CellSpec α)) (ctx : Ctx α) (k : String)
    (sp : CellSpec α)
    (hfind : vars.find? (fun p => p.1 == k) = some (k, sp)
             ∨ (vars.find? (fun p => p.1 == k) = none ∧ sp = ⟨none, none⟩)) :
    ((registryDelItem vars ctx k).1
      = !(ContextVarDescriptor.is_gettable sp (ctx k)))
    ∧ ((registryDelItem vars ctx k).1 = true ↔
        ¬ ((∃ v, (ctx k).slot = some (VarVal.real v))
           ∨ (((ctx k).slot = none
               ∨ (ctx k).slot = some VarVal.RESET_TO_DEFAULT)
              ∧ (sp.default.isSome = true ∨ sp.deferred_default.isSome = true))))
    ∧ ((registryDelItem vars ctx k).1 = true →
        (registryDelItem vars ctx k).2.2 = ctx)
    ∧ ((registryDelItem vars ctx k).1 = false →
        ((registryDelItem vars ctx k).2.2 k).slot = some VarVal.DELETED
        ∧ ∀ m, m ≠ k → (registryDelItem vars ctx k).2.2 m = ctx m)
    ∧ (vars.find? (fun p => p.1 == k) = none →
        (registryDelItem vars ctx k).2.1 = vars ++ [(k, ⟨none, none⟩)]) := by
  rcases hfind with hfound | ⟨hnone, hsp⟩
  · cases hget : ContextVarDescriptor.is_gettable sp (ctx k) with
    | true =>
      have hr : registryDelItem vars ctx k
          = (false, vars, updCell ctx k (ContextVarDescriptor.delete (ctx k))) := by
        simp [registryDelItem, hfound, hget]
      have hsem := (is_gettable_iff sp (ctx k)).mp hget
      refine ⟨by simp [hr, hget], ?_, ?_, ?_, ?_⟩
      · rw [hr]
        exact iff_of_false (by simp) (fun hns => hns hsem)
      · rw [hr]
        intro h
        simp at h
      · rw [hr]
        intro _
        constructor
        · simp [updCell, ContextVarDescriptor.delete, ContextVarDescriptor.set]
        · intro m hm
          simp [updCell, hm]
      · intro habs
        rw [hfound] at habs
        simp at habs
    | false =>
      have hr : registryDelItem vars ctx k = (true, vars, ctx) := by
        simp [registryDelItem, hfound, hget]
      have hsemf : ¬ ((∃ v, (ctx k).slot = some (VarVal.real v))
          ∨ (((ctx k).slot = none
              ∨ (ctx k).slot = some VarVal.RESET_TO_DEFAULT)
             ∧ (sp.default.isSome = true ∨ sp.deferred_default.isSome = true))) := by
        intro hs
        have := (is_gettable_iff sp (ctx k)).mpr hs
        rw [hget] at this
        simp at this
      refine ⟨by simp [hr, hget], ?_, ?_, ?_, ?_⟩
      · rw [hr]
        exact iff_of_true rfl hsemf
      · rw [hr]
        intro _
        rfl
      · rw [hr]
        intro h
        simp at h
      · intro habs
        rw [hfound] at habs
        simp at habs
  · subst hsp
    cases hget : ContextVarDescriptor.is_gettable (⟨none, none⟩ : CellSpec α) (ctx k) with
    | true =>
      have hr : registryDelItem vars ctx k
          = (false, vars ++ [(k, ⟨none, none⟩)],
             updCell ctx k (ContextVarDescriptor.delete (ctx k))) := by
        simp [registryDelItem, hnone, hget]
      have hsem := (is_gettable_iff (⟨none, none⟩ : CellSpec α) (ctx k)).mp hget
      refine ⟨by simp [hr, hget], ?_, ?_, ?_, ?_⟩
      · rw [hr]
        exact iff_of_false (by simp) (fun hns => hns hsem)
      · rw [hr]
        intro h
        simp at h
      · rw [hr]
        intro _
        constructor
        · simp [updCell, ContextVarDescriptor.delete, ContextVarDescriptor.set]
        · intro m hm
          simp [updCell, hm]
      · intro _
        rw [hr]
    | false =>
      have hr : registryDelItem vars ctx k
          = (true, vars ++ [(k, ⟨none, none⟩)], ctx) := by
        simp [registryDelItem, hnone, hget]
      have hsemf : ¬ ((∃ v, (ctx k).slot = some (VarVal.real v))
          ∨ (((ctx k).slot = none
              ∨ (ctx k).slot = some VarVal.RESET_TO_DEFAULT)
             ∧ ((⟨none, none⟩ : CellSpec α).default.isSome = true
                ∨ (⟨none, none⟩ : CellSpec α).deferred_default.isSome = true))) := by
        intro hs
        have := (is_gettable_iff (⟨none, none⟩ : CellSpec α) (ctx k)).mpr hs
        rw [hget] at this
        simp at this
      refine ⟨by simp [hr, hget], ?_, ?_, ?_, ?_⟩
      · rw [hr]
        exact iff_of_true rfl hsemf
      · rw [hr]
        intro _
        rfl
      · rw [hr]
        intro h
        simp at h
      · intro _
        rw [hr]

/-- Witness for C8: deleting a declared, explicitly set cell `x` succeeds
and leaves the `DELETED` mark. -/
theorem C8_witness :
    ([("x", (⟨none, none⟩ : CellSpec Nat))].find? (fun p => p.1 == "x")
        = some ("x", ⟨none, none⟩)
     ∨ ([("x", (⟨none, none⟩ : CellSpec Nat))].find? (fun p => p.1 == "x") = none
        ∧ (⟨none, none⟩ : CellSpec Nat) = ⟨none, none⟩))
    ∧ (((registryDelItem [("x", (⟨none, none⟩ : CellSpec Nat))]
          (fun _ => ⟨some (VarVal.real 3), 0⟩) "x").1
        = !(ContextVarDescriptor.is_gettable (⟨none, none⟩ : CellSpec Nat)
            (((fun _ => ⟨some (VarVal.real 3), 0⟩) : Ctx Nat) "x")))
      ∧ ((registryDelItem [("x", (⟨none, none⟩ : CellSpec Nat))]
            (fun _ => ⟨some (VarVal.real 3), 0⟩) "x").1 = true ↔
          ¬ ((∃ v, ((((fun _ => ⟨some (VarVal.real 3), 0⟩) : Ctx Nat) "x")).slot
                = some (VarVal.real v))
             ∨ (((((fun _ => ⟨some (VarVal.real 3), 0⟩) : Ctx Nat) "x").slot = none
                 ∨ (((fun _ => ⟨some (VarVal.real 3), 0⟩) : Ctx Nat) "x").slot
                     = some VarVal.RESET_TO_DEFAULT)
                ∧ ((⟨none, none⟩ : CellSpec Nat).default.isSome = true
                   ∨ (⟨none, none⟩ : CellSpec Nat).deferred_default.isSome = true))))
      ∧ ((registryDelItem [("x", (⟨none, none⟩ : CellSpec Nat))]
            (fun _ => ⟨some (VarVal.real 3), 0⟩) "x").1 = true →
          (registryDelItem [("x", (⟨none, none⟩ : CellSpec Nat))]
            (fun _ => ⟨some (VarVal.real 3), 0⟩) "x").2.2
            = (fun _ => ⟨some (VarVal.real 3), 0⟩))
      ∧ ((registryDelItem [("x", (⟨none, none⟩ : CellSpec Nat))]
            (fun _ => ⟨some (VarVal.real 3), 0⟩) "x").1 = false →
          ((registryDelItem [("x", (⟨none, none⟩ : CellSpec Nat))]
              (fun _ => ⟨some (VarVal.real 3), 0⟩) "x").2.2 "x").slot
            = some VarVal.DELETED
          ∧ ∀ m, m ≠ "x" →
              (registryDelItem [("x", (⟨none, none⟩ : CellSpec Nat))]
                (fun _ => ⟨some (VarVal.real 3), 0⟩) "x").2.2 m
                = ((fun _ => ⟨some (VarVal.real 3), 0⟩) : Ctx Nat) m)
      ∧ ([("x", (⟨none, none⟩ : CellSpec Nat))].find? (fun p => p.1 == "x") = none →
          (registryDelItem [("x", (⟨none, none⟩ : CellSpec Nat))]
            (fun _ => ⟨some (VarVal.real 3), 0⟩) "x").2.1
            = [("x", ⟨none, none⟩)] ++ [("x", ⟨none, none⟩)])) := by
  exact ⟨Or.inl (by decide),
    C8_delitem_raises_iff_not_gettable
      [("x", ⟨none, none⟩)] (fun _ => ⟨some (VarVal.real 3), 0⟩) "x"
      ⟨none, none⟩ (Or.inl (by decide))⟩

/-! ## The lazy allocation path under concurrency

`ContextVarsRegistry` allocates a descriptor on first write.  The write path
(`__setitem__` / `__setattr__` → `__before_set__ensure_allocated` →
`__before_set__allocate_var_descriptor` → `__allocate_var_descriptor`) is,
per thread, the following sequence of atomic actions on shared class state:

* `start`: `cls._registry_var_descriptors[attr_name]` — on a hit, proceed
  straight to the write; on `KeyError`, take the allocation path;
* `preAssert`: `assert not hasattr(cls, attr_name)` in
  `__before_set__allocate_var_descriptor` — an unlocked read of the class
  attribute; fails with `AssertionError` if another thread has published;
* `acquire`: `with cls._registry_var_allocate_lock:`;
* `lockedCheck`: `assert attr_name not in cls._registry_var_descriptors` —
  the post-lock check; fails with `AssertionError` (releasing the lock) if
  another thread published while this one was between `start` and `acquire`;
* `publishAttr`: create the `ContextVarDescriptor` (a new cell) and
  `setattr(cls, attr_name, descriptor)`;
* `publishDict`: `cls._registry_var_descriptors[attr_name] = descriptor`;
* `releaseLock`: leave the `with` block;
* `writeVal`: `return cls._registry_var_descriptors[attr_name]` followed by
  `ctx_var.set(value)` — the write itself; records the observed cell.

Shared state: the class attribute, the descriptor dict entry (cells are
numbered in creation order), the lock owner, and the count of cells ever
created.  A schedule is a list of thread indices; a blocked thread (waiting
on the lock) or a finished thread makes no progress when scheduled. -/

/-- Program counter of one first-writer thread (see the section comment for
the source position of each label). -/
inductive WriterPc where
  | start
  | preAssert
  | acquire
  | lockedCheck
  | publishAttr
  | publishDict
  | releaseLock
  | writeVal
  | done
  | failed
deriving DecidableEq, Repr

/-- Shared registry-class state plus the per-thread program counters and the
cell identity each completed writer observed. -/
structure RaceState where
  attrPublished : Option Nat
  dictPublished : Option Nat
  lockHeld : Option Nat
  cellsCreated : Nat
  pcs : List WriterPc
  observed : List (Option Nat)
deriving DecidableEq, Repr

/-- Replaces the program counter of thread `i`. -/
def setPc (s : RaceState) (i : Nat) (pc : WriterPc) : RaceState :=
  { s with pcs := s.pcs.set i pc }

/-- One atomic action of thread `i` (no-op when the thread is finished,
failed, or blocked on the lock). -/
def raceStep (s : RaceState) (i : Nat) : RaceState :=
  match s.pcs.get? i with
  | none => s
  | some pc =>
    match pc with
    | .start =>
      match s.dictPublished with
      | some _ => setPc s i .writeVal
      | none => setPc s i .preAssert
    | .preAssert =>
      match s.attrPublished with
      | some _ => setPc s i .failed
      | none => setPc s i .acquire
    | .acquire =>
      match s.lockHeld with
      | some _ => s
      | none => { setPc s i .lockedCheck with lockHeld := some i }
    | .lockedCheck =>
      match s.dictPublished with
      | some _ => { setPc s i .failed with lockHeld := none }
      | none => setPc s i .publishAttr
    | .publishAttr =>
      { setPc s i .publishDict with
          attrPublished := some s.cellsCreated,
          cellsCreated := s.cellsCreated + 1 }
    | .publishDict => { setPc s i .releaseLock with dictPublished := s.attrPublished }
    | .releaseLock => { setPc s i .writeVal with lockHeld := none }
    | .writeVal =>
      { setPc s i .done with observed := s.observed.set i s.dictPublished }
    | .done => s
    | .failed => s

/-- Initial state for `n` concurrent first-writers to one unallocated name. -/
def raceInit (n : Nat) : RaceState :=
  ⟨none, none, none, 0, List.replicate n .start, List.replicate n none⟩

/-- Runs a schedule (a list of thread indices) from the initial state. -/
def raceRun (n : Nat) (sched : List Nat) : RaceState :=
  sched.foldl raceStep (raceInit n)

/-- Claim C9, code bug: two concurrent first-writers to the same unallocated
name do **not** both succeed.  Under the schedule in which thread 1 misses
the descriptor dict, thread 0 then runs its whole write to completion, and
thread 1 resumes, thread 1 dies with `AssertionError` at
`assert not hasattr(cls, attr_name)` (and would equally die at the in-lock
`assert attr_name not in cls._registry_var_descriptors`): its write never
happens.  Exactly one cell is created and thread 0 observes it, but the
claim's "all N writes succeed" fails — the post-lock "double check" is an
assertion instead of returning the existing descriptor. -/
theorem C9_losing_first_writer_hits_assertion :
    (raceRun 2 [1, 0, 0, 0, 0, 0, 0, 0, 0, 1]).cellsCreated = 1
    ∧ (raceRun 2 [1, 0, 0, 0, 0, 0, 0, 0, 0, 1]).pcs
        = [WriterPc.done, WriterPc.failed]
    ∧ (raceRun 2 [1, 0, 0, 0, 0, 0, 0, 0, 0, 1]).observed = [some 0, none]
    ∧ (raceRun 2 [1, 0, 0, 0, 0, 0, 0, 0, 0, 1]).lockHeld = none := by
  exact ⟨by decide, by decide, by decide, by decide⟩
